import Mathlib

/-!
Shallow embedding of the chain-reorganization monitor and the reorg-aware
log-scanning pipeline of the `web3scout` repository.

Sources embedded here:
- `src/python/prod/data/reorganization_monitor.py` (`ReorganizationMonitor`)
- `src/python/prod/data/chain_reorganization_resolution.py`
  (`ChainReorganizationResolution`)
- `src/python/prod/event/tools/chain_reorganization_detection.py`
  (`ChainReorganizationDetected`)
- `src/python/prod/event/process/read_events.py` (`ReadEvents`)

Modelling conventions:
- Python ints that are always non-negative in this code (block numbers,
  timestamps) are `Nat`; block hashes and topic hashes are `String`.
- Python dicts keyed by block number / topic hash are association lists
  with unique keys; insertion of a fresh key appends (Python dict
  insertion order), assignment to an existing key overwrites in place.
- A stateful Python method that may raise becomes a function returning
  `State × Option PyError`: the returned state is the object state at
  normal return or at the moment the exception left the method (Python
  mutations performed before the raise are kept), and the `Option` is
  the raised exception.  Pure methods return `Except`.
- The module `reorganization_monitor.py` never imports `time` or
  `asdict` and neither imports nor defines `TooLongRange`,
  `BlockNotAvailable` and `ReorganisationResolutionFailure`; at the
  points where those names are evaluated Python raises
  `NameError`.  This is embedded as `PyError.nameError <name>`.
-/

set_option autoImplicit false

deriving instance DecidableEq for Except

namespace Web3Scout

/-- Block header value type.  The class itself lives in the external
collaborator package (`eth_defi.event_reader.block_header`); its fields
are `block_number`, `block_hash`, `timestamp` as used throughout
`reorganization_monitor.py` and as described by spec section 3. -/
structure BlockHeader where
  block_number : Nat
  block_hash : String
  timestamp : Nat
deriving DecidableEq

/-- `ChainReorganizationDetected` exception payload, from
`src/python/prod/event/tools/chain_reorganization_detection.py`. -/
structure ChainReorganizationDetected where
  block_number : Nat
  original_hash : String
  new_hash : String
deriving DecidableEq

/-- Runtime errors the embedded monitor code can raise.
`nameError s` models Python evaluating an undefined global name `s`
(the module is missing the corresponding import / class definition). -/
inductive PyError where
  | assertionError
  | keyError (key : Nat)
  | valueError
  | nameError (missing : String)
  | reorg (d : ChainReorganizationDetected)
deriving DecidableEq

/-- Lookup in a block-number-keyed dict (`self.block_map.get(n)` /
`n in self.block_map`). -/
def lookupB : List (Nat × BlockHeader) → Nat → Option BlockHeader
  | [], _ => none
  | (k, b) :: rest, n => if k = n then some b else lookupB rest n

/-- Keys of the block map, in insertion order. -/
def keysOf (bm : List (Nat × BlockHeader)) : List Nat := bm.map Prod.fst

/-- `del bm[n]` on a dict with unique keys: remove the entry with key `n`. -/
def eraseB : List (Nat × BlockHeader) → Nat → List (Nat × BlockHeader)
  | [], _ => []
  | (k, b) :: rest, n => if k = n then rest else (k, b) :: eraseB rest n

/-- `max(bm.keys())` over a non-empty dict (0 placeholder when empty;
the Python call raises `ValueError` on an empty dict and the callers
below branch on emptiness before relying on this value). -/
def maxKey (bm : List (Nat × BlockHeader)) : Nat := (keysOf bm).foldr max 0

/-- The monitor state: `block_map`, read cursor, and configuration, from
the dataclass fields of `ReorganizationMonitor`. -/
structure ReorganizationMonitor where
  block_map : List (Nat × BlockHeader)
  last_block_read : Nat
  check_depth : Nat
  max_cycle_tries : Nat
  reorg_wait_seconds : Nat
deriving DecidableEq

/-- A freshly constructed monitor with the source defaults:
empty buffer, `last_block_read = 0`, `check_depth = 20`,
`max_cycle_tries = 10`, `reorg_wait_seconds = 5`. -/
def freshMonitor : ReorganizationMonitor :=
  { block_map := [], last_block_read := 0, check_depth := 20
    max_cycle_tries := 10, reorg_wait_seconds := 5 }

/-- `ReorganizationMonitor.add_block`.  Source order matters: the
duplicate assert runs first, then the record is inserted into
`block_map`, then the in-order assert runs (so an out-of-order failure
leaves the record inserted), then `last_block_read` is advanced. -/
def add_block (m : ReorganizationMonitor) (record : BlockHeader) :
    ReorganizationMonitor × Option PyError :=
  let block_number := record.block_number
  if (lookupB m.block_map block_number).isSome then
    (m, some .assertionError)
  else
    let m1 := { m with block_map := m.block_map ++ [(block_number, record)] }
    if m.last_block_read ≠ 0 ∧ m.last_block_read ≠ block_number - 1 then
      (m1, some .assertionError)
    else
      ({ m1 with last_block_read := block_number }, none)

/-- `ReorganizationMonitor.check_block_reorg`: pure lookup;
raises `ChainReorganizationDetected` on a hash mismatch, returns the
stored timestamp on a match, `none` when the block is not buffered. -/
def check_block_reorg (m : ReorganizationMonitor) (block_number : Nat)
    (block_hash : String) : Except ChainReorganizationDetected (Option Nat) :=
  match lookupB m.block_map block_number with
  | some original_block =>
    if original_block.block_hash ≠ block_hash then
      .error ⟨block_number, original_block.block_hash, block_hash⟩
    else
      .ok (some original_block.timestamp)
  | none => .ok none

/-- The deletion loop of `truncate`: `for b in range(g+1, last+1): del
self.block_map[b]`.  Deletions are sequential; a missing key raises
`KeyError` leaving the earlier deletions applied. -/
def delete_range (bm : List (Nat × BlockHeader)) :
    List Nat → List (Nat × BlockHeader) × Option PyError
  | [] => (bm, none)
  | k :: ks =>
    if (lookupB bm k).isSome then delete_range (eraseB bm k) ks
    else (bm, some (.keyError k))

/-- `ReorganizationMonitor.truncate`.  `assert self.last_block_read` is a
truthiness check (`last_block_read = 0` fails).  `range(latest_good_block
+ 1, last_block_read + 1)` is `List.range' (g+1) (last - g)` over `Nat`
(empty when `g ≥ last`, exactly as in Python). -/
def truncate (m : ReorganizationMonitor) (latest_good_block : Nat) :
    ReorganizationMonitor × Option PyError :=
  if m.last_block_read = 0 then (m, some .assertionError)
  else
    match delete_range m.block_map
        (List.range' (latest_good_block + 1)
          (m.last_block_read - latest_good_block)) with
    | (bm, none) =>
      ({ m with block_map := bm, last_block_read := latest_good_block }, none)
    | (bm, some e) => ({ m with block_map := bm }, some e)

/-- `ReorganizationMonitor.restore`: replaces the buffer wholesale, then
sets `last_block_read = max(block_map.keys())`.  On an empty dict the
`max` call raises `ValueError` after the buffer has already been
replaced. -/
def restore (m : ReorganizationMonitor) (block_map : List (Nat × BlockHeader)) :
    ReorganizationMonitor × Option PyError :=
  let m1 := { m with block_map := block_map }
  if block_map.isEmpty then (m1, some .valueError)
  else ({ m1 with last_block_read := maxKey block_map }, none)

/-- `ReorganizationMonitor.skip_to_block`: sets the cursor only, never
touching `block_map` (the `type(block_number) == int` assert always
passes for a `Nat`). -/
def skip_to_block (m : ReorganizationMonitor) (block_number : Nat) :
    ReorganizationMonitor :=
  { m with last_block_read := block_number }

/-- `ReorganizationMonitor.get_block_timestamp`.  Both failure branches
execute `raise BlockNotAvailable(...)`; `BlockNotAvailable` is an
undefined name in the module, so Python actually raises `NameError`. -/
def get_block_timestamp (m : ReorganizationMonitor) (block_number : Nat) :
    Except PyError Nat :=
  if m.block_map.isEmpty then .error (.nameError "BlockNotAvailable")
  else
    match lookupB m.block_map block_number with
    | none => .error (.nameError "BlockNotAvailable")
    | some b => .ok b.timestamp

/-- `ReorganizationMonitor.to_pandas`: `[asdict(h) for h in
self.block_map.values()]`.  `asdict` is not imported from `dataclasses`,
so the comprehension raises `NameError` on its first element; for an
empty buffer the comprehension is empty, `asdict` is never evaluated and
the external `BlockHeader.to_pandas` receives `[]` (modelled as the
empty snapshot). -/
def to_pandas (m : ReorganizationMonitor) :
    Except PyError (List (Nat × BlockHeader)) :=
  if m.block_map.isEmpty then .ok [] else .error (.nameError "asdict")

/-- The abstract extension points `get_last_block_live` and
`fetch_block_data` (implemented by `JSONRPCReorganizationMonitor` over
JSON-RPC).  A source is a constant tip plus a pure fetch function; the
monitor calls it afresh on every detection pass. -/
structure HeaderSource where
  get_last_block_live : Nat
  fetch_block_data : Nat → Nat → List BlockHeader

/-- The body loop of `figure_reorganisation_and_new_blocks`: for every
fetched header, `check_block_reorg` first (its mismatch exception
aborts the loop), then `add_block` for unseen block numbers (its
assertion errors also abort the loop, uncaught). -/
def figure_loop : ReorganizationMonitor → List BlockHeader →
    ReorganizationMonitor × Option PyError
  | m, [] => (m, none)
  | m, b :: bs =>
    match check_block_reorg m b.block_number b.block_hash with
    | .error d => (m, some (.reorg d))
    | .ok _ =>
      if (lookupB m.block_map b.block_number).isSome then figure_loop m bs
      else
        match add_block m b with
        | (m1, none) => figure_loop m1 bs
        | (m1, some e) => (m1, some e)

/-- `ReorganizationMonitor.figure_reorganisation_and_new_blocks`.
`check_start_at = max(last_block_read - check_depth, 1)` (Nat
subtraction truncates at 0 exactly where the Python `max` with 1 makes
the difference irrelevant).  The too-long-range branch executes `raise
TooLongRange(...)`: an undefined name, hence `NameError`. -/
def figure_reorganisation_and_new_blocks (src : HeaderSource)
    (m : ReorganizationMonitor) (max_range : Option Nat) :
    ReorganizationMonitor × Option PyError :=
  let chain_last_block := src.get_last_block_live
  let check_start_at := max (m.last_block_read - m.check_depth) 1
  match max_range with
  | some mr =>
    if chain_last_block - check_start_at > mr then
      (m, some (.nameError "TooLongRange"))
    else figure_loop m (src.fetch_block_data check_start_at chain_last_block)
  | none => figure_loop m (src.fetch_block_data check_start_at chain_last_block)

/-- `ChainReorganizationResolution`, from
`src/python/prod/data/chain_reorganization_resolution.py`. -/
structure ChainReorganizationResolution where
  last_live_block : Nat
  latest_block_with_good_data : Nat
  reorg_detected : Bool
deriving DecidableEq

/-- `ChainReorganizationResolution.get_read_range`: asserts
`last_live_block >= latest_block_with_good_data`, then returns the
inclusive pair `(latest_block_with_good_data + 1, last_live_block)`. -/
def get_read_range (r : ChainReorganizationResolution) :
    Except PyError (Nat × Nat) :=
  if r.latest_block_with_good_data ≤ r.last_live_block then
    .ok (r.latest_block_with_good_data + 1, r.last_live_block)
  else .error .assertionError

/-- `ReorganizationMonitor.update_chain`.  The `while tries_left > 0`
loop can never run a second iteration: the success branch returns, an
unexpected error propagates, and the `ChainReorganizationDetected`
handler ends with `time.sleep(self.reorg_wait_seconds)` where `time` is
an undefined name in the module, raising `NameError` right after
`truncate` and the `tries_left` decrement.  The loop is therefore
equivalent to a single conditional on `max_cycle_tries > 0`; the
fall-through `raise ReorganisationResolutionFailure(...)` also
evaluates an undefined name, raising `NameError`. -/
def update_chain (src : HeaderSource) (m : ReorganizationMonitor) :
    ReorganizationMonitor × Except PyError ChainReorganizationResolution :=
  let tries_left := m.max_cycle_tries
  let max_purge := m.last_block_read
  if tries_left > 0 then
    match figure_reorganisation_and_new_blocks src m (some 1000000) with
    | (m1, none) =>
      (m1, .ok ⟨m1.last_block_read, max_purge, false⟩)
    | (m1, some (.reorg d)) =>
      let latest_good_block := d.block_number - 1
      match truncate m1 latest_good_block with
      | (m2, some e) => (m2, .error e)
      | (m2, none) => (m2, .error (.nameError "time"))
    | (m1, some e) => (m1, .error e)
  else
    (m, .error (.nameError "ReorganisationResolutionFailure"))

/-- Fold of `add_block` over a list of headers, stopping at the first
raised error (models a caller issuing consecutive `add_block` calls
while every call succeeds). -/
def add_blocks : ReorganizationMonitor → List BlockHeader →
    ReorganizationMonitor × Option PyError
  | m, [] => (m, none)
  | m, h :: hs =>
    match add_block m h with
    | (m1, none) => add_blocks m1 hs
    | (m1, some e) => (m1, some e)

/-- Key uniqueness of a dict-modelling association list. -/
def NoDupKeys (bm : List (Nat × BlockHeader)) : Prop := (keysOf bm).Nodup

/-- The single invariant claimed for the read cursor: an empty buffer
has `last_block_read = 0`, and a non-empty buffer contains
`last_block_read` as a key and no key above it (i.e. `last_block_read`
is the maximum key present). -/
def LastIsMax (m : ReorganizationMonitor) : Prop :=
  (m.block_map = [] → m.last_block_read = 0) ∧
  (m.block_map ≠ [] →
    (lookupB m.block_map m.last_block_read).isSome ∧
    ∀ k, (lookupB m.block_map k).isSome → k ≤ m.last_block_read)

/-- Monitor states reachable from a fresh monitor by successful
`add_block` calls, successful `truncate` calls whose argument is a
buffered block number, and successful `restore` calls from a
duplicate-free snapshot. -/
inductive ReachesC6 : ReorganizationMonitor → Prop
  | start : ReachesC6 freshMonitor
  | add_step (m m1 : ReorganizationMonitor) (h : BlockHeader) :
      ReachesC6 m → add_block m h = (m1, none) → ReachesC6 m1
  | truncate_step (m m1 : ReorganizationMonitor) (g : Nat) :
      ReachesC6 m → (lookupB m.block_map g).isSome →
      truncate m g = (m1, none) → ReachesC6 m1
  | restore_step (m m1 : ReorganizationMonitor)
      (bm : List (Nat × BlockHeader)) :
      ReachesC6 m → NoDupKeys bm → restore m bm = (m1, none) → ReachesC6 m1

/-- An event descriptor handed to the reader.  In the source this is a
`web3` `ContractEvent` class; `event.build_filter().topics` (computed by
the external `web3` library) is embedded as the `signatures` field:
the topic hashes the descriptor matches, as `0x...` hex strings. -/
structure ContractEvent where
  name : String
  signatures : List String
deriving DecidableEq

/-- Generic dict lookup keyed by strings (topic hashes / block hashes). -/
def lookupD {α : Type} : List (String × α) → String → Option α
  | [], _ => none
  | (k, v) :: rest, s => if k = s then some v else lookupD rest s

/-- Python dict assignment `d[k] = v`: overwrite in place when the key
exists, append otherwise. -/
def insertD {α : Type} : List (String × α) → String → α → List (String × α)
  | [], k, v => [(k, v)]
  | (k1, v1) :: rest, k, v =>
    if k1 = k then (k, v) :: rest else (k1, v1) :: insertD rest k v

/-- Modelled from the spec: the `Filter` value type imported by
`read_events.py` from `...data.filter`, a module absent from the
sources.  Per spec section 3 it is a topic-hash → event-descriptor map,
an optional address restriction, and a bloom filter over topic hashes
(the bloom is embedded as the list of digests added to it, membership
being the only capability the claims touch). -/
structure Filter where
  topics : List (String × ContractEvent)
  bloom : List String
  contract_address : Option String
deriving DecidableEq

/-- `ReadEvents.prepare_filter`: for each event, for each signature,
`topics[signature] = event` and `bloom.add(bytes.fromhex(signature[2:]))`
(embedded as appending the hex string with the `0x` stripped).  There is
no duplicate detection of any kind; the function cannot fail. -/
def filter_step (acc : List (String × ContractEvent) × List String)
    (e : ContractEvent) : List (String × ContractEvent) × List String :=
  e.signatures.foldl
    (fun acc2 sig => (insertD acc2.1 sig e, acc2.2 ++ [sig.drop 2])) acc

/-- The whole of `prepare_filter`: fold `filter_step` over the supplied
descriptors starting from an empty topic map and bloom filter. -/
def prepare_filter (events : List ContractEvent) : Filter :=
  let folded := events.foldl filter_step ([], [])
  { topics := folded.1, bloom := folded.2, contract_address := none }

/-- A raw log record as returned by the external `eth_getLogs` call,
already in the plain-dict shape the reader requires (the middleware
checks in the source reject `AttributeDict` / `HexBytes` shapes;
`blockNumber` is kept as the integer the `Conversion` helper yields). -/
structure RawLog where
  address : String
  blockHash : String
  blockNumber : Nat
  transactionHash : String
  logIndex : Nat
  topics : List String
  data : String
deriving DecidableEq

/-- A yielded `LogResult`: the raw log plus the fields the reader
retrofits before `yield log` (`event`, `timestamp`, `chunk_id`). -/
structure LogRecord where
  raw : RawLog
  event : ContractEvent
  timestamp : Option Nat
  chunk_id : Nat
deriving DecidableEq

/-- Errors the embedded reader can raise per log or per call.
`nameError s` again models `raise <UndefinedName>(...)` for the
exception classes (`TimestampNotFound`, `BadTimestampValueReturned`,
`ReadingLogsFailed`) that `read_events.py` neither imports nor
defines. -/
inductive ReadError where
  | assertionError
  | keyError (key : String)
  | indexError
  | reorg (d : ChainReorganizationDetected)
  | nameError (missing : String)
deriving DecidableEq

/-- The per-log body of `ReadEvents.extract_events`: take `topics[0]`
(`IndexError` when absent), bind the descriptor from `filter.topics`
(`KeyError` when absent), then either cross-check through the monitor —
a `ChainReorganizationDetected` propagates, and a `None` timestamp from
`check_block_reorg` trips the `assert timestamp is not None` — or fall
back to the timestamp table keyed by block hash. -/
def process_log (filter : Filter) (reorg_mon : Option ReorganizationMonitor)
    (timestamps : Option (List (String × Nat))) (start_block : Nat)
    (log : RawLog) : Except ReadError LogRecord :=
  let block_hash := log.blockHash
  let block_number := log.blockNumber
  match log.topics.head? with
  | none => .error .indexError
  | some event_signature =>
    match lookupD filter.topics event_signature with
    | none => .error (.keyError event_signature)
    | some ev =>
      match reorg_mon with
      | some mon =>
        match check_block_reorg mon block_number block_hash with
        | .error d => .error (.reorg d)
        | .ok none => .error .assertionError
        | .ok (some ts) => .ok ⟨log, ev, some ts, start_block⟩
      | none =>
        match timestamps with
        | some tmap =>
          match lookupD tmap block_hash with
          | some ts => .ok ⟨log, ev, some ts, start_block⟩
          | none => .error (.nameError "TimestampNotFound")
        | none => .ok ⟨log, ev, none, start_block⟩

/-- Generator semantics of the `for log in logs: ...; yield log` loop:
the records yielded before the loop stops, paired with the exception
that stopped it (if any). -/
def extract_loop (f : RawLog → Except ReadError LogRecord) :
    List RawLog → List LogRecord × Option ReadError
  | [] => ([], none)
  | l :: ls =>
    match f l with
    | .error e => ([], some e)
    | .ok r =>
      let rest := extract_loop f ls
      (r :: rest.1, rest.2)

/-- `ReadEvents.extract_events` over one block chunk.  The external
`eth_getLogs` transport call is abstracted by passing its decoded
response as `logs`; `extract_ts` stands for the value the
`extract_timestamps` callable would return for the chunk, `none`
meaning the callable itself was `None`.  The leading assert rejects
supplying both a monitor and a timestamp extractor; the timestamp table
is only materialised when at least one log was returned. -/
def extract_events (logs : List RawLog) (filter : Filter)
    (extract_ts : Option (List (String × Nat)))
    (reorg_mon : Option ReorganizationMonitor) (start_block : Nat) :
    List LogRecord × Option ReadError :=
  if reorg_mon.isSome ∧ extract_ts.isSome then ([], some .assertionError)
  else
    let timestamps := if logs.isEmpty then none else extract_ts
    extract_loop (process_log filter reorg_mon timestamps start_block) logs

/-! Concrete fixtures used by the per-claim witnesses and
counterexamples. -/

/-- A monitor buffering blocks 1..3 with hashes `a1 a2 a3`, configured
with `max_cycle_tries = 3` as in the bounded-retries scenario of the
spec. -/
def mon3 : ReorganizationMonitor :=
  { block_map := [(1, ⟨1, "a1", 11⟩), (2, ⟨2, "a2", 12⟩), (3, ⟨3, "a3", 13⟩)]
    last_block_read := 3, check_depth := 20, max_cycle_tries := 3
    reorg_wait_seconds := 5 }

/-- A header source whose every fetch reports block 2 with hash `b2`,
mismatching the `a2` stored in `mon3`: a reorg is detected on every
detection pass. -/
def srcMismatch : HeaderSource :=
  { get_last_block_live := 3
    fetch_block_data := fun s e =>
      (List.range' s (e + 1 - s)).map fun n =>
        if n = 2 then ⟨2, "b2", 12⟩ else ⟨n, "a" ++ toString n, 10 + n⟩ }

/-- A monitor buffering exactly `(50, hashA)` (here `hA`). -/
def mon50 : ReorganizationMonitor :=
  { block_map := [(50, ⟨50, "hA", 777⟩)], last_block_read := 50
    check_depth := 20, max_cycle_tries := 10, reorg_wait_seconds := 5 }

/-- A monitor buffering only block 1. -/
def mon1 : ReorganizationMonitor :=
  { block_map := [(1, ⟨1, "g1", 5⟩)], last_block_read := 1
    check_depth := 20, max_cycle_tries := 10, reorg_wait_seconds := 5 }

/-- Event descriptors A and B exposing the same topic hash, and C with
a distinct one. -/
def evA : ContractEvent := ⟨"Swap", ["0xdead"]⟩

/-- Second descriptor with the same `0xdead` topic hash as `evA`. -/
def evB : ContractEvent := ⟨"Mint", ["0xdead"]⟩

/-- Descriptor with a topic hash distinct from `0xdead`. -/
def evC : ContractEvent := ⟨"Sync", ["0xbeef"]⟩

/-- A monitor buffering blocks 1..10 with hashes `h1..h10`, for the scan
fixtures. -/
def mon10 : ReorganizationMonitor :=
  { block_map := (List.range' 1 10).map fun n =>
      (n, ⟨n, "h" ++ toString n, 100 + n⟩)
    last_block_read := 10, check_depth := 20, max_cycle_tries := 10
    reorg_wait_seconds := 5 }

/-- A filter matching topic hash `0xs` to descriptor `evA`. -/
def filterS : Filter := { topics := [("0xs", evA)], bloom := ["s"]
                          contract_address := none }

/-- A raw log for block `n` carrying block hash `h` and topic `0xs`. -/
def rawlog (n : Nat) (h : String) : RawLog :=
  ⟨"0xc0ffee", h, n, "0xtx", 0, ["0xs"], "0x"⟩

/-- The first two logs of the 10-log chunk: blocks 1 and 2 with the
hashes the monitor stored. -/
def logsPre : List RawLog := [rawlog 1 "h1", rawlog 2 "h2"]

/-- The 3rd log of the chunk: block 3 with hash `hX`, mismatching the
stored `h3`. -/
def logBad : RawLog := rawlog 3 "hX"

/-- Logs 4..10 of the chunk, matching the stored hashes. -/
def logsRest : List RawLog :=
  (List.range' 4 7).map fun n => rawlog n ("h" ++ toString n)

/-- The record `process_log` yields for a clean log of the 10-log chunk
(timestamps were stored as `100 + blockNumber`). -/
def recOf (l : RawLog) : LogRecord := ⟨l, evA, some (100 + l.blockNumber), 1⟩

/-- Invariant threaded through sequences of successful `add_block`
calls that start from a fresh monitor and only ever add positive block
numbers: the buffer is empty with cursor 0, or its key set is exactly
the integer range `[a, last_block_read]` for some `a ≥ 1`. -/
def ContigFromOne (m : ReorganizationMonitor) : Prop :=
  (m.block_map = [] ∧ m.last_block_read = 0) ∨
  (∃ a, 1 ≤ a ∧ a ≤ m.last_block_read ∧
    ∀ n, (lookupB m.block_map n).isSome ↔ (a ≤ n ∧ n ≤ m.last_block_read))

/-- Two `add_block` calls that both succeed on a fresh monitor yet leave
a gap: block 0 first (the cursor stays 0, so the in-order assert is
skipped on the next call), then block 2. -/
def c3blocks : List BlockHeader := [⟨0, "g0", 1⟩, ⟨2, "g2", 2⟩]

/-! Helper lemmas about the association-list dict operations. -/

theorem lookupB_append (l1 l2 : List (Nat × BlockHeader)) (n : Nat) :
    lookupB (l1 ++ l2) n =
      match lookupB l1 n with
      | some b => some b
      | none => lookupB l2 n := by
  induction l1 with
  | nil => rfl
  | cons p rest ih =>
    obtain ⟨k, b⟩ := p
    by_cases hk : k = n <;> simp [lookupB, hk, ih]

theorem lookupB_isSome_iff_mem (bm : List (Nat × BlockHeader)) (n : Nat) :
    (lookupB bm n).isSome ↔ n ∈ keysOf bm := by
  induction bm with
  | nil => simp [lookupB, keysOf]
  | cons p rest ih =>
    obtain ⟨k, b⟩ := p
    by_cases hk : k = n
    · simp [lookupB, keysOf, hk]
    · have hk2 : ¬ n = k := fun hh => hk hh.symm
      simp [lookupB, keysOf, hk, hk2, ih]

theorem lookupB_ne_nil (bm : List (Nat × BlockHeader)) (n : Nat)
    (h : (lookupB bm n).isSome) : bm ≠ [] := by
  cases bm with
  | nil => simp [lookupB] at h
  | cons p rest => simp

theorem lookupB_eraseB_ne (bm : List (Nat × BlockHeader)) (k n : Nat)
    (h : n ≠ k) : lookupB (eraseB bm k) n = lookupB bm n := by
  induction bm with
  | nil => rfl
  | cons p rest ih =>
    obtain ⟨k1, b⟩ := p
    by_cases h1 : k1 = k
    · have hkn : ¬ k = n := fun hh => h hh.symm
      simp [eraseB, h1, lookupB, hkn]
    · simp [eraseB, h1, lookupB, ih]

theorem keysOf_eraseB_sublist (bm : List (Nat × BlockHeader)) (k : Nat) :
    List.Sublist (keysOf (eraseB bm k)) (keysOf bm) := by
  induction bm with
  | nil => simp [eraseB, keysOf]
  | cons p rest ih =>
    obtain ⟨k1, b⟩ := p
    by_cases h1 : k1 = k
    · simp only [eraseB, if_pos h1, keysOf, List.map_cons]
      exact List.sublist_cons_self _ _
    · simp only [eraseB, if_neg h1, keysOf, List.map_cons]
      exact List.Sublist.cons₂ _ ih

theorem nodupKeys_eraseB (bm : List (Nat × BlockHeader)) (k : Nat)
    (h : NoDupKeys bm) : NoDupKeys (eraseB bm k) :=
  List.Nodup.sublist (keysOf_eraseB_sublist bm k) h

theorem lookupB_eraseB_self (bm : List (Nat × BlockHeader)) (k : Nat)
    (h : NoDupKeys bm) : lookupB (eraseB bm k) k = none := by
  induction bm with
  | nil => rfl
  | cons p rest ih =>
    obtain ⟨k1, b⟩ := p
    have hnd : k1 ∉ keysOf rest ∧ NoDupKeys rest := by
      simpa [NoDupKeys, keysOf] using h
    by_cases h1 : k1 = k
    · subst h1
      have : ¬ (lookupB rest k1).isSome := by
        rw [lookupB_isSome_iff_mem]
        exact hnd.1
      simpa [eraseB, Option.not_isSome_iff_eq_none] using this
    · simp [eraseB, lookupB, h1, ih hnd.2]

theorem le_foldr_max (l : List Nat) (x : Nat) (hx : x ∈ l) :
    x ≤ l.foldr max 0 := by
  induction l with
  | nil => cases hx
  | cons a t ih =>
    rcases List.mem_cons.mp hx with rfl | hx
    · exact le_max_left _ _
    · exact le_trans (ih hx) (le_max_right _ _)

theorem foldr_max_mem (l : List Nat) (hl : l ≠ []) : l.foldr max 0 ∈ l := by
  induction l with
  | nil => exact absurd rfl hl
  | cons a t ih =>
    cases t with
    | nil =>
      show max a 0 ∈ [a]
      simp
    | cons b t2 =>
      have hmem := ih (by simp)
      rcases le_total (List.foldr max 0 (b :: t2)) a with hle | hge
      · have hfa : List.foldr max 0 (a :: b :: t2) = a := by
          show max a (List.foldr max 0 (b :: t2)) = a
          exact max_eq_left hle
        rw [hfa]
        exact List.mem_cons_self _ _
      · have hfa : List.foldr max 0 (a :: b :: t2) = List.foldr max 0 (b :: t2) := by
          show max a (List.foldr max 0 (b :: t2)) = List.foldr max 0 (b :: t2)
          exact max_eq_right hge
        rw [hfa]
        exact List.mem_cons_of_mem _ hmem

/-! Inversion lemmas for the successful paths of the mutators. -/

theorem add_block_ok_inv (m m1 : ReorganizationMonitor) (h : BlockHeader)
    (he : add_block m h = (m1, none)) :
    lookupB m.block_map h.block_number = none ∧
    (m.last_block_read = 0 ∨ m.last_block_read = h.block_number - 1) ∧
    m1 = { m with
           block_map := m.block_map ++ [(h.block_number, h)],
           last_block_read := h.block_number } := by
  unfold add_block at he
  by_cases h1 : (lookupB m.block_map h.block_number).isSome
  · simp [h1] at he
  · by_cases h2 : m.last_block_read ≠ 0 ∧
        m.last_block_read ≠ h.block_number - 1
    · simp [h1, h2] at he
    · refine ⟨Option.not_isSome_iff_eq_none.mp h1, ?_, ?_⟩
      · rcases not_and_or.mp h2 with hc | hc
        · exact Or.inl (not_not.mp hc)
        · exact Or.inr (not_not.mp hc)
      · simp [h1, h2] at he
        exact he.symm

theorem truncate_ok_inv (m m1 : ReorganizationMonitor) (g : Nat)
    (hnd : NoDupKeys m.block_map) (he : truncate m g = (m1, none)) :
    m.last_block_read ≠ 0 ∧ m1.last_block_read = g ∧
    NoDupKeys m1.block_map ∧
    ∀ n, lookupB m1.block_map n =
      if n ∈ List.range' (g + 1) (m.last_block_read - g) then none
      else lookupB m.block_map n := by
  have hdel : ∀ (ks : List Nat) (bm bm1 : List (Nat × BlockHeader)),
      NoDupKeys bm → delete_range bm ks = (bm1, none) →
      NoDupKeys bm1 ∧
      ∀ n, lookupB bm1 n = if n ∈ ks then none else lookupB bm n := by
    intro ks
    induction ks with
    | nil =>
      intro bm bm1 hnd hdr
      simp [delete_range] at hdr
      subst hdr
      exact ⟨hnd, fun n => by simp⟩
    | cons k ks ih =>
      intro bm bm1 hnd hdr
      by_cases hk : (lookupB bm k).isSome
      · rw [delete_range, if_pos hk] at hdr
        obtain ⟨hnd1, hlook⟩ := ih (eraseB bm k) bm1 (nodupKeys_eraseB bm k hnd) hdr
        refine ⟨hnd1, fun n => ?_⟩
        by_cases hn1 : n ∈ ks
        · simp [hlook n, hn1]
        · by_cases hn2 : n = k
          · subst hn2
            simp [hlook n, hn1, lookupB_eraseB_self bm n hnd]
          · simp [hlook n, hn1, hn2, lookupB_eraseB_ne bm k n hn2]
      · rw [delete_range, if_neg hk] at hdr
        simp at hdr
  unfold truncate at he
  by_cases h0 : m.last_block_read = 0
  · simp [h0] at he
  · rw [if_neg h0] at he
    rcases hdr : delete_range m.block_map
        (List.range' (g + 1) (m.last_block_read - g)) with ⟨bm, e⟩
    rw [hdr] at he
    cases e with
    | some err => simp at he
    | none =>
      obtain ⟨hnd1, hlook⟩ := hdel _ _ _ hnd hdr
      simp at he
      subst he
      exact ⟨h0, rfl, hnd1, hlook⟩

theorem restore_ok_inv (m m1 : ReorganizationMonitor)
    (bm : List (Nat × BlockHeader)) (he : restore m bm = (m1, none)) :
    bm ≠ [] ∧
    m1 = { m with block_map := bm, last_block_read := maxKey bm } := by
  unfold restore at he
  by_cases hb : bm.isEmpty
  · simp [hb] at he
  · rw [if_neg hb] at he
    simp at he
    exact ⟨by simpa using hb, he.symm⟩

/-! Claim C1 (code-bug evidence) -/

/-- C1: the claim says an `update_chain` cycle against an
always-mismatching header source with `max_cycle_tries = 3` performs
exactly 3 detection passes and then fails with
`ReorgResolutionFailure`.  The code disagrees: the retry handler
executes `time.sleep(...)` with `time` not imported, so after the first
detection pass (which truncates to block 1) the call fails with a
`NameError` — a different error after a single pass.  This theorem
evaluates the embedded code on the failing input `mon3` /
`srcMismatch`. -/
theorem claim_C1_theorem :
    (update_chain srcMismatch mon3).2 = .error (.nameError "time") ∧
    (update_chain srcMismatch mon3).1.last_block_read = 1 ∧
    mon3.max_cycle_tries = 3 := by decide

/-! Claim C2 -/

/-- C2: `check_block_reorg` is the claimed three-way case split: a
buffered block with a different hash raises
`ChainReorganizationDetected (blockNumber, storedHash, newHash)`; a
buffered block with the same hash returns its stored timestamp; an
unbuffered block returns the no-opinion value `none` without raising. -/
theorem claim_C2_theorem (m : ReorganizationMonitor) (bn : Nat) (bh : String) :
    (∀ b, lookupB m.block_map bn = some b → b.block_hash ≠ bh →
      check_block_reorg m bn bh = .error ⟨bn, b.block_hash, bh⟩) ∧
    (∀ b, lookupB m.block_map bn = some b → b.block_hash = bh →
      check_block_reorg m bn bh = .ok (some b.timestamp)) ∧
    (lookupB m.block_map bn = none → check_block_reorg m bn bh = .ok none) := by
  refine ⟨?_, ?_, ?_⟩
  · intro b hb hne
    simp [check_block_reorg, hb, hne]
  · intro b hb heq
    simp [check_block_reorg, hb, heq]
  · intro hnone
    simp [check_block_reorg, hnone]

/-- C2 witness: on a buffer holding `(50, hA)`, checking `(50, hB)`
raises exactly `(50, hA, hB)`, checking `(50, hA)` returns the stored
timestamp 777, and checking an absent block returns `none`. -/
theorem claim_C2_witness :
    check_block_reorg mon50 50 "hB" = .error ⟨50, "hA", "hB"⟩ ∧
    check_block_reorg mon50 50 "hA" = .ok (some 777) ∧
    check_block_reorg mon50 49 "hA" = .ok none := by
  refine ⟨?_, ?_, ?_⟩
  · exact (claim_C2_theorem mon50 50 "hB").1 ⟨50, "hA", 777⟩ (by decide) (by decide)
  · exact (claim_C2_theorem mon50 50 "hA").2.1 ⟨50, "hA", 777⟩ (by decide) rfl
  · exact (claim_C2_theorem mon50 49 "hA").2.2 (by decide)

/-! Claim C4 -/

/-- C4: whenever `lastLiveBlock ≥ latestBlockWithGoodData`,
`get_read_range` returns exactly the inclusive pair
`(latestBlockWithGoodData + 1, lastLiveBlock)`. -/
theorem claim_C4_theorem (r : ChainReorganizationResolution)
    (h : r.latest_block_with_good_data ≤ r.last_live_block) :
    get_read_range r =
      .ok (r.latest_block_with_good_data + 1, r.last_live_block) := by
  simp [get_read_range, h]

/-- C4 witness: `latestBlockWithGoodData = 80`, `lastLiveBlock = 100`
gives the read range `(81, 100)`. -/
theorem claim_C4_witness : get_read_range ⟨100, 80, false⟩ = .ok (81, 100) :=
  claim_C4_theorem ⟨100, 80, false⟩ (by decide)

/-! Claim C5 (corrected) -/

/-- C5 counterexample: the claim says an out-of-order `add_block`
failure leaves the offending header out of the buffer and the key set
unchanged.  On a buffer holding only block 1, `add_block` of block 5
does raise the assertion error and leaves `last_block_read` alone — but
the offending header 5 IS in the buffer afterwards, because the source
inserts into `block_map` before running the in-order assert. -/
theorem claim_C5_counterexample :
    (add_block mon1 ⟨5, "x5", 9⟩).2 = some .assertionError ∧
    lookupB (add_block mon1 ⟨5, "x5", 9⟩).1.block_map 5 = some ⟨5, "x5", 9⟩ ∧
    (add_block mon1 ⟨5, "x5", 9⟩).1.last_block_read = 1 := by decide

/-- C5 amended: when `add_block` fails out-of-order (block number not
already present, cursor non-zero and not `blockNumber - 1`), the call
raises the assertion error and leaves `last_block_read` unmodified, but
the offending header has already been appended to the buffer. -/
theorem claim_C5_theorem (m : ReorganizationMonitor) (record : BlockHeader)
    (hfresh : lookupB m.block_map record.block_number = none)
    (hnz : m.last_block_read ≠ 0)
    (hooo : m.last_block_read ≠ record.block_number - 1) :
    add_block m record =
      ({ m with
         block_map := m.block_map ++ [(record.block_number, record)] },
        some .assertionError) := by
  simp [add_block, hfresh, hnz, hooo]

/-- C5 witness: the amended statement at the concrete failing call of
the counterexample. -/
theorem claim_C5_witness :
    add_block mon1 ⟨5, "x5", 9⟩ =
      ({ mon1 with block_map := mon1.block_map ++ [(5, ⟨5, "x5", 9⟩)] },
        some .assertionError) :=
  claim_C5_theorem mon1 ⟨5, "x5", 9⟩ (by decide) (by decide) (by decide)

/-! Claim C8 (code-bug evidence) -/

/-- C8: the claim says `Restore(ToSnapshot())` on a non-empty buffer
reproduces an observably identical monitor.  The code cannot perform
the round trip at all: `to_pandas` evaluates `asdict` — never imported
from `dataclasses` — on the first buffered header, raising `NameError`
for every non-empty buffer.  This theorem evaluates the embedded
snapshot operation on a non-empty monitor. -/
theorem claim_C8_theorem :
    mon1.block_map ≠ [] ∧ to_pandas mon1 = .error (.nameError "asdict") := by
  decide

/-! Claim C9 (corrected) -/

theorem lookupD_insertD_self {α : Type} (d : List (String × α)) (k : String)
    (v : α) : lookupD (insertD d k v) k = some v := by
  induction d with
  | nil => simp [insertD, lookupD]
  | cons p rest ih =>
    obtain ⟨k1, v1⟩ := p
    by_cases h1 : k1 = k <;> simp [insertD, lookupD, h1, ih]

theorem lookupD_insertD_ne {α : Type} (d : List (String × α)) (k s : String)
    (v : α) (h : k ≠ s) : lookupD (insertD d k v) s = lookupD d s := by
  induction d with
  | nil => simp [insertD, lookupD, h]
  | cons p rest ih =>
    obtain ⟨k1, v1⟩ := p
    by_cases h1 : k1 = k
    · simp [insertD, lookupD, h1, h]
    · simp [insertD, lookupD, h1, ih]

theorem filter_step_lookup (e : ContractEvent) (s : String)
    (sigs : List String) :
    ∀ (acc : List (String × ContractEvent) × List String),
    lookupD (sigs.foldl
      (fun acc2 sig => (insertD acc2.1 sig e, acc2.2 ++ [sig.drop 2])) acc).1 s
      = if s ∈ sigs then some e else lookupD acc.1 s := by
  induction sigs with
  | nil => intro acc; simp
  | cons sig rest ih =>
    intro acc
    rw [List.foldl_cons, ih]
    by_cases hr : s ∈ rest
    · simp [hr]
    · by_cases hs : sig = s
      · simp [hr, hs, lookupD_insertD_self]
      · have hs2 : ¬ s = sig := fun hh => hs hh.symm
        simp [hr, hs2, lookupD_insertD_ne _ _ _ _ hs]

theorem filter_fold_lookup_untouched (events : List ContractEvent)
    (s : String) (h : ∀ e ∈ events, s ∉ e.signatures) :
    ∀ (acc : List (String × ContractEvent) × List String),
    lookupD (events.foldl filter_step acc).1 s = lookupD acc.1 s := by
  induction events with
  | nil => intro acc; simp
  | cons e rest ih =>
    intro acc
    rw [List.foldl_cons,
      ih (fun e2 he2 => h e2 (List.mem_cons_of_mem _ he2)),
      filter_step, filter_step_lookup,
      if_neg (h e (List.mem_cons_self _ _))]

/-- C9 counterexample: the claim says two distinct descriptors with the
same topic hash make filter construction fail with a configuration
error.  In the source, `prepare_filter` is total (it raises nothing):
feeding `evA` and `evB`, both exposing topic hash `0xdead`, silently
builds a filter whose topic map binds `0xdead` only to the later
descriptor `evB`. -/
theorem claim_C9_counterexample :
    evA ≠ evB ∧
    lookupD (prepare_filter [evA, evB]).topics "0xdead" = some evB := by
  decide

/-- C9 amended: duplicate topic hashes are not detected;
`prepare_filter` always succeeds and its topic map binds a duplicated
topic hash to the last descriptor in the supplied list that exposes
it (earlier conflicting descriptors are silently overwritten). -/
theorem claim_C9_theorem (pre post : List ContractEvent) (e : ContractEvent)
    (s : String) (hs : s ∈ e.signatures)
    (hpost : ∀ e2 ∈ post, s ∉ e2.signatures) :
    lookupD (prepare_filter (pre ++ e :: post)).topics s = some e := by
  show lookupD ((pre ++ e :: post).foldl filter_step ([], [])).1 s = some e
  rw [List.foldl_append, List.foldl_cons,
    filter_fold_lookup_untouched post s hpost,
    filter_step, filter_step_lookup, if_pos hs]

/-- C9 witness: with `evA, evB, evC` supplied in that order and `evA`,
`evB` sharing topic hash `0xdead`, the built filter maps `0xdead` to
`evB`. -/
theorem claim_C9_witness :
    lookupD (prepare_filter [evA, evB, evC]).topics "0xdead" = some evB :=
  claim_C9_theorem [evA] [evC] evB "0xdead" (by decide) (by decide)

/-! Claims C7 and C10: the scan loop -/

theorem extract_loop_append (f : RawLog → Except ReadError LogRecord)
    (g : RawLog → LogRecord) (pre : List RawLog) (bad : RawLog)
    (rest : List RawLog) (e : ReadError)
    (hpre : ∀ l ∈ pre, f l = .ok (g l)) (hbad : f bad = .error e) :
    extract_loop f (pre ++ bad :: rest) = (pre.map g, some e) := by
  induction pre with
  | nil => simp [extract_loop, hbad]
  | cons a as ih =>
    have ha := hpre a (List.mem_cons_self _ _)
    have hr := ih (fun l hl => hpre l (List.mem_cons_of_mem _ hl))
    simp [extract_loop, ha, hr]

/-- C7: if the first `k-1` logs of a chunk each pass the monitor
cross-check (producing records `g l`) and the `k`-th log trips
`check_block_reorg`, the scan yields exactly those first `k-1` records
and then propagates the reorg signal; the `k`-th and all later logs of
the chunk are never yielded. -/
theorem claim_C7_theorem (filter : Filter) (mon : ReorganizationMonitor)
    (start_block : Nat) (g : RawLog → LogRecord) (pre : List RawLog)
    (bad : RawLog) (rest : List RawLog) (d : ChainReorganizationDetected)
    (hpre : ∀ l ∈ pre,
      process_log filter (some mon) none start_block l = .ok (g l))
    (hbad : process_log filter (some mon) none start_block bad
      = .error (.reorg d)) :
    extract_events (pre ++ bad :: rest) filter none (some mon) start_block
      = (pre.map g, some (.reorg d)) := by
  unfold extract_events
  rw [if_neg (by simp)]
  simpa [ite_self] using
    extract_loop_append _ g pre bad rest _ hpre hbad

/-- C7 witness: the spec instance — a 10-log chunk whose 3rd log
carries a mismatching hash for block 3 yields exactly the 2 records for
blocks 1 and 2 and then the reorg signal `(3, h3, hX)`. -/
theorem claim_C7_witness :
    extract_events (logsPre ++ logBad :: logsRest) filterS none (some mon10) 1
      = ([recOf (rawlog 1 "h1"), recOf (rawlog 2 "h2")],
          some (.reorg ⟨3, "h3", "hX"⟩)) ∧
    (logsPre ++ logBad :: logsRest).length = 10 := by
  refine ⟨?_, by decide⟩
  exact claim_C7_theorem filterS mon10 1 recOf logsPre logBad logsRest
    ⟨3, "h3", "hX"⟩ (by decide) (by decide)

/-- C10: when a monitor is attached and a fetched log's block number is
absent from the buffer (the reorg check returns the no-opinion value),
the scan fails with the assertion error before yielding that log: only
the records of the earlier clean logs are yielded, and the absent-block
log is never yielded with a null or fallback timestamp. -/
theorem claim_C10_theorem (filter : Filter) (mon : ReorganizationMonitor)
    (start_block : Nat) (g : RawLog → LogRecord) (pre : List RawLog)
    (bad : RawLog) (rest : List RawLog) (sig : String) (ev : ContractEvent)
    (hpre : ∀ l ∈ pre,
      process_log filter (some mon) none start_block l = .ok (g l))
    (hsig : bad.topics.head? = some sig)
    (hev : lookupD filter.topics sig = some ev)
    (habs : lookupB mon.block_map bad.blockNumber = none) :
    extract_events (pre ++ bad :: rest) filter none (some mon) start_block
      = (pre.map g, some .assertionError) := by
  have hbad : process_log filter (some mon) none start_block bad
      = .error .assertionError := by
    simp [process_log, hsig, hev, check_block_reorg, habs]
  unfold extract_events
  rw [if_neg (by simp)]
  simpa [ite_self] using
    extract_loop_append _ g pre bad rest _ hpre hbad

/-- C10 witness: on a monitor buffering only block 1, a scan over a
clean log for block 1 followed by a log for the unbuffered block 99
yields the block-1 record and then the assertion failure. -/
theorem claim_C10_witness :
    extract_events [rawlog 1 "g1", rawlog 99 "zz"] filterS none (some mon1) 1
      = ([⟨rawlog 1 "g1", evA, some 5, 1⟩], some .assertionError) :=
  claim_C10_theorem filterS mon1 1 (fun l => ⟨l, evA, some 5, 1⟩)
    [rawlog 1 "g1"] (rawlog 99 "zz") [] "0xs" evA
    (by decide) (by decide) (by decide) (by decide)

/-! Claim C3 (corrected) -/

theorem contig_step (m m1 : ReorganizationMonitor) (h : BlockHeader)
    (hI : ContigFromOne m) (hpos : 1 ≤ h.block_number)
    (he : add_block m h = (m1, none)) : ContigFromOne m1 := by
  obtain ⟨hfresh, horder, hm1⟩ := add_block_ok_inv m m1 h he
  subst hm1
  rcases hI with ⟨hmap, hlast⟩ | ⟨a, ha1, hale, hiff⟩
  · right
    refine ⟨h.block_number, hpos, le_refl _, fun n => ?_⟩
    simp only [hmap, List.nil_append]
    by_cases hn : h.block_number = n
    · simp [lookupB, hn]
    · simp [lookupB, hn]
      omega
  · right
    have hlast0 : m.last_block_read ≠ 0 := by omega
    have hbn : h.block_number = m.last_block_read + 1 := by
      rcases horder with h0 | h1
      · exact absurd h0 hlast0
      · omega
    refine ⟨a, ha1, ?_, fun n => ?_⟩
    · show a ≤ h.block_number
      omega
    show (lookupB (m.block_map ++ [(h.block_number, h)]) n).isSome ↔
      (a ≤ n ∧ n ≤ h.block_number)
    rw [lookupB_append]
    cases hl : lookupB m.block_map n with
    | some b =>
      have hn := (hiff n).mp (by simp [hl])
      simp only [Option.isSome_some, true_iff]
      omega
    | none =>
      have hn : ¬ (a ≤ n ∧ n ≤ m.last_block_read) := fun hc => by
        have hS := (hiff n).mpr hc
        rw [hl] at hS
        simp at hS
      by_cases hbe : h.block_number = n
      · simp [lookupB, hbe]
        omega
      · simp [lookupB, hbe]
        omega

theorem add_blocks_contig (hs : List BlockHeader) :
    ∀ (m : ReorganizationMonitor), ContigFromOne m →
    (∀ h ∈ hs, 1 ≤ h.block_number) → (add_blocks m hs).2 = none →
    ContigFromOne (add_blocks m hs).1 := by
  induction hs with
  | nil =>
    intro m hI _ _
    simpa [add_blocks] using hI
  | cons h hs ih =>
    intro m hI hpos hok
    rcases hab : add_block m h with ⟨m1, e⟩
    cases e with
    | none =>
      have hI1 := contig_step m m1 h hI (hpos h (List.mem_cons_self _ _)) hab
      have hstep : add_blocks m (h :: hs) = add_blocks m1 hs := by
        simp [add_blocks, hab]
      rw [hstep] at hok ⊢
      exact ih m1 hI1 (fun h2 hh => hpos h2 (List.mem_cons_of_mem _ hh)) hok
    | some err =>
      have hstep : add_blocks m (h :: hs) = (m1, some err) := by
        simp [add_blocks, hab]
      rw [hstep] at hok
      simp at hok

/-- C3 counterexample: on a fresh monitor, adding block 0 and then
block 2 both succeed — the cursor is still 0 after the first call, so
the in-order assert is skipped — yet the resulting key set `{0, 2}` is
not a contiguous integer range. -/
theorem claim_C3_counterexample :
    (add_blocks freshMonitor c3blocks).2 = none ∧
    ¬ ∃ a, ∀ n,
      (lookupB (add_blocks freshMonitor c3blocks).1.block_map n).isSome ↔
      (a ≤ n ∧ n ≤ (add_blocks freshMonitor c3blocks).1.last_block_read) := by
  refine ⟨by decide, ?_⟩
  rintro ⟨a, ha⟩
  have e2 : (add_blocks freshMonitor c3blocks).1.last_block_read = 2 := by
    decide
  simp only [e2] at ha
  have h0 : a ≤ 0 ∧ (0 : Nat) ≤ 2 := (ha 0).mp (by decide)
  have h1 : (lookupB (add_blocks freshMonitor c3blocks).1.block_map 1).isSome :=
    (ha 1).mpr ⟨by omega, by omega⟩
  have h1n : ¬ (lookupB (add_blocks freshMonitor c3blocks).1.block_map 1).isSome := by
    decide
  exact h1n h1

/-- C3 amended: for every sequence of `add_block` calls on a fresh
monitor in which every call succeeds AND every added block number is
positive, the buffer's key set is a contiguous integer range whose
maximum is `last_block_read` (for the empty sequence the range is
empty).  The positivity proviso is exactly what the block-0
counterexample forces. -/
theorem claim_C3_theorem (hs : List BlockHeader)
    (hok : (add_blocks freshMonitor hs).2 = none)
    (hpos : ∀ h ∈ hs, 1 ≤ h.block_number) :
    ∃ a, ∀ n,
      (lookupB (add_blocks freshMonitor hs).1.block_map n).isSome ↔
      (a ≤ n ∧ n ≤ (add_blocks freshMonitor hs).1.last_block_read) := by
  have hI := add_blocks_contig hs freshMonitor (Or.inl ⟨rfl, rfl⟩) hpos hok
  rcases hI with ⟨hmap, hlast⟩ | ⟨a, _, _, hiff⟩
  · refine ⟨1, fun n => ?_⟩
    rw [hmap, hlast]
    simp [lookupB]
    omega
  · exact ⟨a, hiff⟩

/-- C3 witness: adding blocks 1 then 2 to a fresh monitor yields a
contiguous key range ending at the cursor. -/
theorem claim_C3_witness :
    ∃ a, ∀ n,
      (lookupB (add_blocks freshMonitor
        [⟨1, "w1", 1⟩, ⟨2, "w2", 2⟩]).1.block_map n).isSome ↔
      (a ≤ n ∧ n ≤ (add_blocks freshMonitor
        [⟨1, "w1", 1⟩, ⟨2, "w2", 2⟩]).1.last_block_read) :=
  claim_C3_theorem [⟨1, "w1", 1⟩, ⟨2, "w2", 2⟩] (by decide) (by decide)

/-! Claim C6 (corrected) -/

theorem reaches_invariant (m : ReorganizationMonitor) (h : ReachesC6 m) :
    NoDupKeys m.block_map ∧ LastIsMax m := by
  induction h with
  | start =>
    refine ⟨by simp [NoDupKeys, keysOf, freshMonitor], ?_, ?_⟩
    · intro _
      rfl
    · intro hne
      exact absurd rfl hne
  | add_step m' m1 hdr hrech he ih =>
    obtain ⟨hnd, hlim⟩ := ih
    obtain ⟨hfresh, horder, hm1⟩ := add_block_ok_inv m' m1 hdr he
    subst hm1
    have hnotmem : hdr.block_number ∉ keysOf m'.block_map := by
      rw [← lookupB_isSome_iff_mem]
      simp [hfresh]
    constructor
    · show (keysOf (m'.block_map ++ [(hdr.block_number, hdr)])).Nodup
      simp only [keysOf, List.map_append, List.map_cons, List.map_nil]
      refine List.Nodup.append hnd (List.nodup_singleton _) ?_
      intro x hx hx2
      rw [List.mem_singleton] at hx2
      subst hx2
      exact hnotmem hx
    · refine ⟨?_, ?_⟩
      · intro hemp
        exact absurd hemp (by simp)
      · intro _
        constructor
        · show (lookupB (m'.block_map ++ [(hdr.block_number, hdr)])
            hdr.block_number).isSome
          rw [lookupB_append, hfresh]
          show (lookupB [(hdr.block_number, hdr)] hdr.block_number).isSome
          simp [lookupB]
        · intro k hk
          show k ≤ hdr.block_number
          rw [show ({ m' with
              block_map := m'.block_map ++ [(hdr.block_number, hdr)],
              last_block_read := hdr.block_number } :
              ReorganizationMonitor).block_map
            = m'.block_map ++ [(hdr.block_number, hdr)] from rfl,
            lookupB_append] at hk
          cases hl : lookupB m'.block_map k with
          | some b =>
            have hne2 : m'.block_map ≠ [] :=
              lookupB_ne_nil m'.block_map k (by simp [hl])
            have hb := (hlim.2 hne2).2 k (by simp [hl])
            rcases horder with h0 | h1 <;> omega
          | none =>
            rw [hl] at hk
            by_cases hbe : hdr.block_number = k
            · omega
            · simp [lookupB, hbe] at hk
  | truncate_step m' m1 g hrech hg he ih =>
    obtain ⟨hnd, hlim⟩ := ih
    obtain ⟨h0, hlast1, hnd1, hlook⟩ := truncate_ok_inv m' m1 g hnd he
    have hgmem : g ∉ List.range' (g + 1) (m'.last_block_read - g) := by
      intro hmem
      have := (List.mem_range'_1.mp hmem).1
      omega
    have hgs : (lookupB m1.block_map g).isSome := by
      rw [hlook g, if_neg hgmem]
      exact hg
    have hne' : m'.block_map ≠ [] := lookupB_ne_nil _ _ hg
    have hgle : g ≤ m'.last_block_read := (hlim.2 hne').2 g hg
    refine ⟨hnd1, ?_, ?_⟩
    · intro hemp
      rw [hemp] at hgs
      simp [lookupB] at hgs
    · intro _
      constructor
      · rw [hlast1]
        exact hgs
      · intro k hk
        rw [hlast1]
        rw [hlook k] at hk
        by_cases hmem : k ∈ List.range' (g + 1) (m'.last_block_read - g)
        · rw [if_pos hmem] at hk
          simp at hk
        · rw [if_neg hmem] at hk
          have hkle : k ≤ m'.last_block_read := (hlim.2 hne').2 k hk
          rw [List.mem_range'_1] at hmem
          omega
  | restore_step m' m1 bm hrech hndbm he ih =>
    obtain ⟨hbne, hm1⟩ := restore_ok_inv m' m1 bm he
    subst hm1
    have hkne : keysOf bm ≠ [] := by
      cases bm with
      | nil => exact absurd rfl hbne
      | cons p rest => simp [keysOf]
    refine ⟨hndbm, ?_, ?_⟩
    · intro hemp
      exact absurd hemp hbne
    · intro _
      constructor
      · show (lookupB bm (maxKey bm)).isSome
        rw [lookupB_isSome_iff_mem]
        exact foldr_max_mem _ hkne
      · intro k hk
        show k ≤ maxKey bm
        exact le_foldr_max _ _ ((lookupB_isSome_iff_mem bm k).mp hk)

/-- C6 counterexample: the claim includes `skip_to_block` among the
operations that preserve `lastBlockRead = max key (0 if empty)`.  But
`skip_to_block 50` on a fresh monitor sets the cursor to 50 while the
buffer stays empty, violating the claimed invariant. -/
theorem claim_C6_counterexample :
    (skip_to_block freshMonitor 50).block_map = [] ∧
    (skip_to_block freshMonitor 50).last_block_read = 50 ∧
    ¬ LastIsMax (skip_to_block freshMonitor 50) := by
  refine ⟨rfl, rfl, fun hL => ?_⟩
  have h50 := hL.1 rfl
  exact absurd h50 (by decide)

/-- C6 amended: after every sequence of successful `add_block` calls,
successful `truncate` calls whose argument is a buffered block number,
and successful `restore` calls from a duplicate-free snapshot —
`skip_to_block` and failed calls excluded, both can break the equality
— `last_block_read` is a buffered key with no key above it (i.e. the
maximum block number present), and it is 0 when the buffer is empty
(which only the fresh state is). -/
theorem claim_C6_theorem (m : ReorganizationMonitor) (h : ReachesC6 m) :
    LastIsMax m :=
  (reaches_invariant m h).2

/-- C6 witness: the invariant at the concrete reachable state obtained
by adding block 4 to a fresh monitor. -/
theorem claim_C6_witness :
    LastIsMax (add_block freshMonitor ⟨4, "w4", 44⟩).1 :=
  claim_C6_theorem (add_block freshMonitor ⟨4, "w4", 44⟩).1
    (ReachesC6.add_step freshMonitor (add_block freshMonitor ⟨4, "w4", 44⟩).1
      ⟨4, "w4", 44⟩ ReachesC6.start rfl)

end Web3Scout
